import Mathlib

/-
Verification development for the zod-ai contract compiler and tool
dispatch protocol (src/ai.ts, src/tools.ts, src/util.ts).

The embedding models JavaScript JSON values as the inductive `Json`,
zod schemas as the inductive `ZodType`, and the zod library boundary
(safeParse, zod-to-json-schema) by its documented behaviour: parsing
validates a JSON value against a schema and strips unknown object keys,
and schema generation emits a draft-07 document with a schema tag and
an additionalProperties marker.  Thrown JavaScript errors become
`Except.error` values carrying the exact invariant message strings from
the source.
-/

/-- A JavaScript JSON value.  Numbers are modelled as integers; objects
are ordered association lists, mirroring JS object key order. -/
inductive Json where
  | str (s : String)
  | num (n : Int)
  | bool (b : Bool)
  | null
  | arr (elems : List Json)
  | obj (fields : List (String × Json))

/-- A zod schema, covering the constructors the repository uses:
primitive types, unknown, arrays, objects (all fields required, the zod
default), unions and promises (used by maybeAZodPromise in tools.ts). -/
inductive ZodType where
  | zString
  | zNumber
  | zBoolean
  | zUnknown
  | zArray (item : ZodType)
  | zObject (shape : List (String × ZodType))
  | zUnion (options : List ZodType)
  | zPromise (item : ZodType)

/-- The `_def.typeName` tag that the source inspects (ai.ts lines 47 and
53, tools.ts line 123). -/
def typeName : ZodType → String
  | .zString => "ZodString"
  | .zNumber => "ZodNumber"
  | .zBoolean => "ZodBoolean"
  | .zUnknown => "ZodUnknown"
  | .zArray _ => "ZodArray"
  | .zObject _ => "ZodObject"
  | .zUnion _ => "ZodUnion"
  | .zPromise _ => "ZodPromise"

/-- JS property access `j[k]`: the value at key `k`, or `Json.null`
standing for the JS `undefined` when the key is absent or the value is
not an object. -/
def getField (j : Json) (k : String) : Json :=
  match j with
  | .obj fields => (fields.lookup k).getD .null
  | _ => .null

/-- Error-propagating map, modelling Promise.all over the per-request
handlers: one output per input, in input order, the first failure
rejecting the whole batch. -/
def mapME (f : α → Except ε β) : List α → Except ε (List β)
  | [] => .ok []
  | a :: as =>
    match f a with
    | .error e => .error e
    | .ok b =>
      match mapME f as with
      | .error e => .error e
      | .ok bs => .ok (b :: bs)

mutual

/-- zod `safeParse` semantics: validate a JSON value against a schema,
returning the parsed value (objects keep only the keys of the shape, the
zod default strip behaviour) or a validation error.  Plain JSON values
are never promises, so a `zPromise` schema rejects every value. -/
def parse : ZodType → Json → Except String Json
  | .zString, .str s => .ok (.str s)
  | .zString, _ => .error "Expected string, received other"
  | .zNumber, .num n => .ok (.num n)
  | .zNumber, _ => .error "Expected number, received other"
  | .zBoolean, .bool b => .ok (.bool b)
  | .zBoolean, _ => .error "Expected boolean, received other"
  | .zUnknown, v => .ok v
  | .zArray t, .arr xs =>
    match mapME (parse t) xs with
    | .ok ys => .ok (.arr ys)
    | .error e => .error e
  | .zArray _, _ => .error "Expected array, received other"
  | .zObject shape, .obj fields =>
    match parseShape shape fields with
    | .ok out => .ok (.obj out)
    | .error e => .error e
  | .zObject _, _ => .error "Expected object, received other"
  | .zUnion options, v => parseUnion options v
  | .zPromise _, _ => .error "Expected promise, received other"

/-- Parse an object against a shape: every shape key is required, unknown
keys are stripped, output keys follow shape order. -/
def parseShape : List (String × ZodType) → List (String × Json) →
    Except String (List (String × Json))
  | [], _ => .ok []
  | (k, t) :: rest, fields =>
    match fields.lookup k with
    | none => .error ("Required key missing: " ++ k)
    | some v =>
      match parse t v with
      | .error e => .error e
      | .ok w =>
        match parseShape rest fields with
        | .error e => .error e
        | .ok ws => .ok ((k, w) :: ws)

/-- Union parsing tries each option in order, as zod does. -/
def parseUnion : List ZodType → Json → Except String Json
  | [], _ => .error "Invalid union input"
  | t :: ts, v =>
    match parse t v with
    | .ok w => .ok w
    | .error _ => parseUnion ts v

end

/-- Escape one character the way JSON.stringify does (only the escapes
the repository can actually produce are needed). -/
def escapeJsonChar (c : Char) : String :=
  if c = '"' then "\\\""
  else if c = '\\' then "\\\\"
  else if c = '\n' then "\\n"
  else String.mk [c]

/-- Escape a whole string body for JSON.stringify. -/
def escapeJsonString (s : String) : String :=
  String.join (s.data.map escapeJsonChar)

mutual

/-- The JS `JSON.stringify` on JSON values (no pretty printing), used by
formatTools for the description addendum (tools.ts line 32). -/
def jsonStringify : Json → String
  | .str s => "\"" ++ escapeJsonString s ++ "\""
  | .num n => toString n
  | .bool b => Bool.rec "false" "true" b
  | .null => "null"
  | .arr elems => "[" ++ stringifyElems elems ++ "]"
  | .obj fields => "\x7b" ++ stringifyFields fields ++ "\x7d"

/-- Comma-joined stringification of array elements. -/
def stringifyElems : List Json → String
  | [] => ""
  | [x] => jsonStringify x
  | x :: y :: rest => jsonStringify x ++ "," ++ stringifyElems (y :: rest)

/-- Comma-joined stringification of object members. -/
def stringifyFields : List (String × Json) → String
  | [] => ""
  | [(k, v)] => "\"" ++ escapeJsonString k ++ "\":" ++ jsonStringify v
  | (k, v) :: m :: rest =>
    "\"" ++ escapeJsonString k ++ "\":" ++ jsonStringify v ++ "," ++
      stringifyFields (m :: rest)

end

mutual

/-- The body of the zod-to-json-schema translation: the draft-07 fields
generated for each zod constructor (objects carry properties, a required
list when non-empty, and additionalProperties false; unknown produces an
empty document with no type; unions produce anyOf with no type). -/
def zodToJsonSchemaBody : ZodType → List (String × Json)
  | .zString => [("type", .str "string")]
  | .zNumber => [("type", .str "number")]
  | .zBoolean => [("type", .str "boolean")]
  | .zUnknown => []
  | .zArray t => [("type", .str "array"), ("items", .obj (zodToJsonSchemaBody t))]
  | .zObject shape =>
    [("type", .str "object"),
     ("properties", .obj (shapeProperties shape))] ++
    (if shape.isEmpty then []
     else [("required", .arr (shape.map (fun kv => Json.str kv.1)))]) ++
    [("additionalProperties", .bool false)]
  | .zUnion options => [("anyOf", .arr (unionBodies options))]
  | .zPromise t => zodToJsonSchemaBody t

/-- Generated sub-schemas for each property of an object shape. -/
def shapeProperties : List (String × ZodType) → List (String × Json)
  | [] => []
  | (k, t) :: rest => (k, .obj (zodToJsonSchemaBody t)) :: shapeProperties rest

/-- Generated sub-schemas for each option of a union. -/
def unionBodies : List ZodType → List Json
  | [] => []
  | t :: ts => .obj (zodToJsonSchemaBody t) :: unionBodies ts

end

/-- The `zodToJsonSchema` library call: the generated body together with
the draft-07 schema-version tag. -/
def zodToJsonSchema (t : ZodType) : Json :=
  .obj (("$schema", .str "http://json-schema.org/draft-07/schema#") ::
    zodToJsonSchemaBody t)

/-- Whether an association list carries a key. -/
def hasKey (fields : List (String × Json)) (k : String) : Bool :=
  (fields.lookup k).isSome

/-- Keep only the listed keys, in the listed order, skipping absent ones
(a JS object literal whose absent members are undefined serializes and
compares as if those keys were omitted). -/
def pickKeys (fields : List (String × Json)) (keys : List String) :
    List (String × Json) :=
  keys.filterMap (fun k => (fields.lookup k).map (fun v => (k, v)))

/-- The trimming step applied to the destructured remainder (util.ts
lines 333-348): require a resolvable type (the invariant throw becomes
an error value) and keep only type, properties, required and
description — properties and required only when a properties member
exists. -/
def trimFields (rest : List (String × Json)) : Except String Json :=
  if hasKey rest "type" then
    if hasKey rest "properties" then
      .ok (.obj (pickKeys rest ["type", "properties", "required", "description"]))
    else
      .ok (.obj (pickKeys rest ["type", "description"]))
  else
    .error "The provided Zod schema must be convertible to a JSON schema"

/-- src/util.ts lines 323-349 (trimGeneratedJsonSchema): strip the
schema-version tag and the definitions table by rest-destructuring, then
trim the remainder. -/
def trimGeneratedJsonSchema (schema : Json) : Except String Json :=
  match schema with
  | .obj fields =>
    trimFields (fields.filter (fun kv => kv.1 ≠ "$schema" ∧ kv.1 ≠ "definitions"))
  | _ => .error "The provided Zod schema must be convertible to a JSON schema"

/-- Keys of a JSON object (empty for non-objects). -/
def jsonKeys : Json → List String
  | .obj fields => fields.map (fun kv => kv.1)
  | _ => []


/-- Skip JSON whitespace. -/
def skipWs : List Char → List Char
  | c :: cs =>
    if c = ' ' ∨ c = '\n' ∨ c = '\t' ∨ c = '\r' then skipWs cs else c :: cs
  | [] => []

/-- Read a JSON string body up to the closing quote, decoding the simple
escapes; returns the string and the remaining input. -/
def parseStringBody : List Char → Except String (String × List Char)
  | [] => .error "Unterminated string in JSON"
  | c :: cs =>
    if c = '"' then .ok ("", cs)
    else if c = '\\' then
      match cs with
      | [] => .error "Unterminated escape in JSON"
      | e :: cs2 =>
        let decoded := if e = 'n' then '\n' else if e = 't' then '\t' else e
        match parseStringBody cs2 with
        | .ok (s, rest) => .ok (String.mk (decoded :: s.data), rest)
        | .error m => .error m
    else
      match parseStringBody cs with
      | .ok (s, rest) => .ok (String.mk (c :: s.data), rest)
      | .error m => .error m

/-- Leading decimal digits of the input, and the rest. -/
def spanDigits : List Char → (List Char × List Char)
  | [] => ([], [])
  | c :: cs =>
    if c.isDigit then
      let (ds, rest) := spanDigits cs
      (c :: ds, rest)
    else ([], c :: cs)

/-- Decimal digit list to a natural number. -/
def digitsToNat (ds : List Char) : Nat :=
  ds.foldl (fun acc c => acc * 10 + (c.toNat - 48)) 0

mutual

/-- Fuel-driven recursive-descent JSON reader modelling the JS built-in
JSON.parse, which the dispatcher applies to the raw tool-call argument
string (tools.ts line 70). -/
def parseJsonF : Nat → List Char → Except String (Json × List Char)
  | 0, _ => .error "JSON reader out of fuel"
  | fuel + 1, input =>
    match skipWs input with
    | [] => .error "Unexpected end of JSON input"
    | c :: cs =>
      if c = '"' then
        match parseStringBody cs with
        | .ok (s, rest) => .ok (.str s, rest)
        | .error m => .error m
      else if c = '\x7b' then
        match skipWs cs with
        | '\x7d' :: rest => .ok (.obj [], rest)
        | other =>
          match parseMembersF fuel other with
          | .ok (fs, rest) => .ok (.obj fs, rest)
          | .error m => .error m
      else if c = '[' then
        match skipWs cs with
        | ']' :: rest => .ok (.arr [], rest)
        | other =>
          match parseArrayElemsF fuel other with
          | .ok (xs, rest) => .ok (.arr xs, rest)
          | .error m => .error m
      else if c = 't' then
        match cs with
        | 'r' :: 'u' :: 'e' :: rest => .ok (.bool true, rest)
        | _ => .error "Unexpected token in JSON"
      else if c = 'f' then
        match cs with
        | 'a' :: 'l' :: 's' :: 'e' :: rest => .ok (.bool false, rest)
        | _ => .error "Unexpected token in JSON"
      else if c = 'n' then
        match cs with
        | 'u' :: 'l' :: 'l' :: rest => .ok (.null, rest)
        | _ => .error "Unexpected token in JSON"
      else if c = '-' then
        match spanDigits cs with
        | ([], _) => .error "Bad number in JSON"
        | (ds, rest) => .ok (.num (-(digitsToNat ds : Int)), rest)
      else if c.isDigit then
        match spanDigits (c :: cs) with
        | (ds, rest) => .ok (.num (digitsToNat ds), rest)
      else .error "Unexpected token in JSON"

/-- Object members after the opening brace of a non-empty object. -/
def parseMembersF : Nat → List Char →
    Except String (List (String × Json) × List Char)
  | 0, _ => .error "JSON reader out of fuel"
  | fuel + 1, input =>
    match skipWs input with
    | '"' :: cs =>
      match parseStringBody cs with
      | .error m => .error m
      | .ok (k, rest1) =>
        match skipWs rest1 with
        | ':' :: rest2 =>
          match parseJsonF fuel rest2 with
          | .error m => .error m
          | .ok (v, rest3) =>
            match skipWs rest3 with
            | ',' :: rest4 =>
              match parseMembersF fuel rest4 with
              | .ok (fs, rest5) => .ok ((k, v) :: fs, rest5)
              | .error m => .error m
            | '\x7d' :: rest4 => .ok ([(k, v)], rest4)
            | _ => .error "Expected comma or closing brace in JSON object"
        | _ => .error "Expected colon in JSON object"
    | _ => .error "Expected string key in JSON object"

/-- Array elements after the opening bracket of a non-empty array. -/
def parseArrayElemsF : Nat → List Char →
    Except String (List Json × List Char)
  | 0, _ => .error "JSON reader out of fuel"
  | fuel + 1, input =>
    match parseJsonF fuel input with
    | .error m => .error m
    | .ok (v, rest1) =>
      match skipWs rest1 with
      | ',' :: rest2 =>
        match parseArrayElemsF fuel rest2 with
        | .ok (xs, rest3) => .ok (v :: xs, rest3)
        | .error m => .error m
      | ']' :: rest2 => .ok ([v], rest2)
      | _ => .error "Expected comma or closing bracket in JSON array"

end

/-- The JS `JSON.parse`: read one JSON value and require only
whitespace after it. -/
def jsonParse (s : String) : Except String Json :=
  match parseJsonF (s.length + 1) s.data with
  | .error m => .error m
  | .ok (j, rest) =>
    if (skipWs rest).isEmpty then .ok j
    else .error "Unexpected trailing characters in JSON"

/-- A compiled zod function signature: the tuple of declared argument
schemas (a slot is `none` when the tuple item is the JS `undefined`), the
declared return schema (`zUnknown` when no `.returns` was given, the zod
default), and the optional `.describe` text. -/
structure ZodFunctionDef where
  args : List (Option ZodType)
  ret : ZodType
  description : Option String

/-- ai.ts line 36: the single-argument invariant message. -/
def singleArgumentMessage : String :=
  "The provided Zod function must have exactly one argument - for multiple inputs, use an input object"

/-- ai.ts line 41: the description invariant message. -/
def descriptionRequiredMessage : String :=
  "The provided Zod function must have a description - this is the implementation that gets passed to the LLM."

/-- ai.ts line 46: the return-type invariant message. -/
def returnTypeRequiredMessage : String :=
  "The provided Zod function must have a return type - this is the output shape passed to the LLM."

/-- util.ts line 333: the SchemaError invariant message. -/
def schemaErrorMessage : String :=
  "The provided Zod schema must be convertible to a JSON schema"

/-- tools.ts lines 27 and 115: the zero-or-one-argument invariant message. -/
def zeroOrOneArgumentMessage : String :=
  "The provided Zod function must have exactly zero arguments or one argument - for multiple inputs, use an input object"

/-- ai.ts lines 52-57: a non-object return type is wrapped as an object
with a single `result` key; an object return type is kept as is. -/
def wrapReturn (t : ZodType) : ZodType :=
  if typeName t = "ZodObject" then t else .zObject [("result", t)]

/-- The record returned by validateFunction (ai.ts lines 67-82). -/
structure FunctionContract where
  inputSchema : Json
  outputSchema : Json
  description : String
  postProcessResult : Json → Except String Json

/-- zodToJsonSchema applied to a tuple item that may be the JS
`undefined` (converting `undefined` is a runtime failure). -/
def zodToJsonSchemaOpt : Option ZodType → Except String Json
  | some t => .ok (zodToJsonSchema t)
  | none => .error "Cannot convert undefined to a JSON schema"

/-- src/ai.ts lines 24-83 (validateFunction): check the three invariants
in source order (single argument, description present, return type not
ZodUnknown), wrap a non-object return type in a `result` object, trim the
generated input and output schemas, and return the contract whose
postProcessResult parses the raw reply against the (possibly wrapped)
return type and unwraps the `result` key when the declared return type
was not an object. -/
def validateFunction (f : ZodFunctionDef) : Except String FunctionContract :=
  if f.args.length = 1 then
    match f.description with
    | none => .error descriptionRequiredMessage
    | some d =>
      if typeName f.ret = "ZodUnknown" then .error returnTypeRequiredMessage
      else
        match zodToJsonSchemaOpt (f.args.headD none) with
        | .error e => .error e
        | .ok rawInputSchema =>
          match trimGeneratedJsonSchema rawInputSchema with
          | .error e => .error e
          | .ok inputS =>
            match trimGeneratedJsonSchema (zodToJsonSchema (wrapReturn f.ret)) with
            | .error e => .error e
            | .ok outputS =>
              .ok
                { inputSchema := inputS
                  outputSchema := outputS
                  description := d
                  postProcessResult := fun result =>
                    match parse (wrapReturn f.ret) result with
                    | .error e => .error e
                    | .ok parsed =>
                      .ok (if typeName f.ret = "ZodObject" then parsed
                           else getField parsed "result") }
  else .error singleArgumentMessage

/-- Whether an Except value is a success. -/
def exceptIsOk : Except ε α → Bool
  | .ok _ => true
  | .error _ => false

/-- The success value of an Except, or a default. -/
def exceptGetD : Except ε α → α → α
  | .ok a, _ => a
  | .error _, d => d

/-- Apply the postProcessResult of a compiled contract (an error when the
compilation itself failed). -/
def postProcessOf (e : Except String FunctionContract) (v : Json) :
    Except String Json :=
  match e with
  | .ok c => c.postProcessResult v
  | .error m => .error m

/-- tools.ts lines 96-100 (maybeAZodPromise): the union of a schema and a
promise of it, used to validate implementation return values. -/
def maybeAZodPromise (t : ZodType) : ZodType :=
  .zUnion [t, .zPromise t]

/-- A registry entry built by makeTool (tools.ts lines 91-94): the stored
wire signature and the wrapped callable.  The callable takes the
JSON-decoded raw arguments and returns the validated result or a thrown
validation error. -/
structure Tool where
  zodFunctionSchema : ZodFunctionDef
  implementation : Json → Except String Json

/-- tools.ts line 120: `parameters().items[0]`, the JS `undefined` when
the declared argument list is empty. -/
def makeToolArgumentType (f : ZodFunctionDef) : Option ZodType :=
  f.args.headD none

/-- tools.ts lines 122-123: override the argument with a nested `input`
key exactly when a single argument exists and is not an object type. -/
def makeToolShouldOverride (f : ZodFunctionDef) : Bool :=
  match makeToolArgumentType f with
  | some t => typeName t != "ZodObject"
  | none => false

/-- tools.ts lines 125-127: the stored argument slot, wrapping a
non-object argument type as an object with a single `input` key. -/
def makeToolArgSlot (f : ZodFunctionDef) : Option ZodType :=
  match makeToolArgumentType f with
  | some t =>
    if typeName t != "ZodObject" then some (.zObject [("input", t)])
    else some t
  | none => none

/-- zod tuple-argument validation inside `implement`: a defined slot
parses the single call argument against its schema; an undefined slot
falls through to the tuple rest schema, ZodUnknown, which accepts the
value unchanged. -/
def parseArgSlot : Option ZodType → Json → Except String Json
  | some t, v => parse t v
  | none, v => .ok v

/-- src/tools.ts lines 105-147 (makeTool): enforce the zero-or-one
argument invariant, store the signature with the (possibly input-wrapped)
argument slot, and store a callable that validates the decoded argument,
unwraps the `input` key when the wrapper was added, runs the user
implementation, and validates its result against the declared return type
or a promise of it. -/
def makeTool (zodFunctionSchema : ZodFunctionDef)
    (implementation : Json → Json) : Except String Tool :=
  if zodFunctionSchema.args.length ≤ 1 then
    .ok
      { zodFunctionSchema :=
          { zodFunctionSchema with args := [makeToolArgSlot zodFunctionSchema] }
        implementation := fun rawFromOpenAi =>
          match parseArgSlot (makeToolArgSlot zodFunctionSchema) rawFromOpenAi with
          | .error e => .error e
          | .ok parsedArg =>
            let argToPassToImplementation :=
              if makeToolShouldOverride zodFunctionSchema then
                getField parsedArg "input"
              else parsedArg
            parse (maybeAZodPromise zodFunctionSchema.ret)
              (implementation argToPassToImplementation) }
  else .error zeroOrOneArgumentMessage

/-- tools.ts lines 73-78: serialize an implementation result for the wire
(strings pass through, numbers become decimal text, everything else is
JSON-encoded). -/
def stringifyResult (callResult : Json) : String :=
  match callResult with
  | .str s => s
  | .num n => toString n
  | other => jsonStringify other

/-- The `function` member of a requested tool call (OpenAI wire shape). -/
structure ToolCallFunction where
  name : String
  arguments : String

/-- One requested tool call: the call id and the named function with its
raw JSON-encoded argument string. -/
structure ChatToolCall where
  id : String
  function : ToolCallFunction

/-- One dispatched result message (tools.ts lines 80-85). -/
structure ToolMessage where
  role : String
  tool_call_id : String
  name : String
  content : String
deriving DecidableEq

/-- A failure of one dispatched call, by failure site: the registry
lookup found no tool of that name (the source then crashes accessing
`implementation` of `undefined`), the raw argument string was not JSON,
or the wrapped callable rejected the call (argument or return
validation). -/
inductive DispatchError where
  | unknownTool (name : String)
  | invalidJson (message : String)
  | callFailure (message : String)
deriving DecidableEq

/-- tools.ts lines 65-86, the per-request handler: look up the named
tool, JSON-decode the raw argument string, run the stored callable, and
build the role-tagged result message carrying the request id and name
and the stringified result. -/
def handleOneToolCall (tools : List (String × Tool)) (call : ChatToolCall) :
    Except DispatchError ToolMessage :=
  match tools.lookup call.function.name with
  | none => .error (.unknownTool call.function.name)
  | some tool =>
    match jsonParse call.function.arguments with
    | .error m => .error (.invalidJson m)
    | .ok toolCallArguments =>
      match tool.implementation toolCallArguments with
      | .error m => .error (.callFailure m)
      | .ok callResult =>
        .ok
          { role := "tool"
            tool_call_id := call.id
            name := call.function.name
            content := stringifyResult callResult }

/-- src/tools.ts lines 60-88 (handleToolCalls): dispatch every requested
call and collect the result messages in request order. -/
def handleToolCalls (tools : List (String × Tool))
    (toolCalls : List ChatToolCall) : Except DispatchError (List ToolMessage) :=
  mapME (handleOneToolCall tools) toolCalls

/-- The `function` member of a formatted tool-list entry. -/
structure ChatFunctionSpec where
  name : String
  description : String
  parameters : Option Json

/-- One formatted tool-list entry (tools.ts lines 53-56). -/
structure ChatCompletionTool where
  type : String
  function : ChatFunctionSpec

/-- tools.ts lines 24-57, the per-tool formatter: enforce the
zero-or-one-argument invariant, append the trimmed return schema to the
description (the "\n\n" separator only after a truthy, hence non-empty,
description), and attach the trimmed argument schema as parameters only
when a defined single argument slot exists. -/
def formatToolEntry (name : String) (fn : Tool) :
    Except String ChatCompletionTool :=
  let functionArguments := fn.zodFunctionSchema.args
  if functionArguments.length = 1 ∨ functionArguments.length = 0 then
    match trimGeneratedJsonSchema (zodToJsonSchema fn.zodFunctionSchema.ret) with
    | .error e => .error e
    | .ok trimmedReturn =>
      let descriptionAddendum :=
        "Responses will match the following JSONSchema definition: " ++
          jsonStringify trimmedReturn
      let description :=
        (match fn.zodFunctionSchema.description with
         | some d => if d = "" then "" else d ++ "\n\n"
         | none => "") ++ descriptionAddendum
      match functionArguments with
      | [some a] =>
        match trimGeneratedJsonSchema (zodToJsonSchema a) with
        | .error e => .error e
        | .ok trimmedArg =>
          .ok
            { type := "function"
              function :=
                { name := name, description := description
                  parameters := some trimmedArg } }
      | _ =>
        .ok
          { type := "function"
            function :=
              { name := name, description := description, parameters := none } }
  else .error zeroOrOneArgumentMessage

/-- src/tools.ts lines 16-58 (formatTools): format every registry entry,
in registry order. -/
def formatTools (tools : List (String × Tool)) :
    Except String (List ChatCompletionTool) :=
  mapME (fun nameAndTool => formatToolEntry nameAndTool.1 nameAndTool.2) tools

/-- A placeholder tool used as the default of exceptGetD. -/
def defaultTool : Tool :=
  { zodFunctionSchema := { args := [], ret := .zUnknown, description := none }
    implementation := fun j => .ok j }

/-- The signature of the repository test at ai.test.ts lines 42-60: a
single string argument, a string return and a description. -/
def sampleSignature : ZodFunctionDef :=
  { args := [some .zString], ret := .zString, description := some "Sample description" }

/-- The declared signature of the string-reversing tool of the concrete
dispatch scenario. -/
def reverseSchema : ZodFunctionDef :=
  { args := [some .zString], ret := .zString
    description := some "Reverses the provided string" }

/-- A string-reversing implementation. -/
def reverseImpl : Json → Json :=
  fun j =>
    match j with
    | .str s => .str (String.mk s.data.reverse)
    | other => other

/-- The reverse tool registered for the concrete dispatch scenario. -/
def reverseTool : Tool :=
  exceptGetD (makeTool reverseSchema reverseImpl) defaultTool

/-- The dispatch request of the concrete scenario. -/
def reverseCall : ChatToolCall :=
  { id := "1"
    function := { name := "reverse", arguments := "\x7b\"input\":\"hello\"\x7d" } }

/-- The zero-argument temperature-lookup signature of the concrete
formatTools scenario. -/
def weatherSchema : ZodFunctionDef :=
  { args := []
    ret := .zObject [("temperature", .zNumber), ("description", .zString)]
    description := some "temperature lookup" }

/-- A weather implementation returning a fixed report. -/
def weatherImpl : Json → Json :=
  fun _ => .obj [("temperature", .num 72), ("description", .str "Sunny")]

/-- The zero-argument weather tool. -/
def weatherTool : Tool :=
  exceptGetD (makeTool weatherSchema weatherImpl) defaultTool

/-- A zero-argument tool returning the number seven, exercising the
numeric stringification path. -/
def sevenSchema : ZodFunctionDef :=
  { args := [], ret := .zNumber, description := some "Returns the number seven" }

/-- The number-seven tool. -/
def sevenTool : Tool :=
  exceptGetD (makeTool sevenSchema (fun _ => .num 7)) defaultTool

/-- A two-tool registry for the ordering scenario. -/
def demoRegistry : List (String × Tool) :=
  [("reverse", reverseTool), ("getSeven", sevenTool)]

/-- Two requests with distinct ids against demoRegistry. -/
def demoCalls : List ChatToolCall :=
  [{ id := "1"
     function := { name := "reverse", arguments := "\x7b\"input\":\"hello\"\x7d" } },
   { id := "2"
     function := { name := "getSeven", arguments := "\x7b\x7d" } }]

/-- The dispatched results of demoCalls. -/
def demoResults : List ToolMessage :=
  exceptGetD (handleToolCalls demoRegistry demoCalls) []

theorem mapME_ok_spec (f : α → Except ε β) :
    ∀ (l : List α) (r : List β), mapME f l = .ok r →
      r.length = l.length ∧
      ∀ i (hi : i < l.length) (hr : i < r.length),
        f (l.get ⟨i, hi⟩) = .ok (r.get ⟨i, hr⟩) := by
  intro l
  induction l with
  | nil =>
    intro r h
    simp only [mapME] at h
    cases h
    exact ⟨rfl, fun i hi => absurd hi (Nat.not_lt_zero i)⟩
  | cons a as ih =>
    intro r h
    simp only [mapME] at h
    cases hfa : f a with
    | error e => rw [hfa] at h; cases h
    | ok b =>
      rw [hfa] at h
      cases hm : mapME f as with
      | error e => rw [hm] at h; cases h
      | ok bs =>
        rw [hm] at h
        cases h
        obtain ⟨hlen, hidx⟩ := ih bs hm
        refine ⟨by simp [hlen], fun i hi hr => ?_⟩
        cases i with
        | zero => simpa using hfa
        | succ j =>
          have hj : j < as.length := by simpa using hi
          have hjr : j < bs.length := by simpa using hr
          simpa using hidx j hj hjr

theorem handleOneToolCall_ok_fields (tools : List (String × Tool))
    (call : ChatToolCall) (msg : ToolMessage)
    (h : handleOneToolCall tools call = .ok msg) :
    msg.role = "tool" ∧ msg.tool_call_id = call.id ∧
      msg.name = call.function.name := by
  unfold handleOneToolCall at h
  cases hl : tools.lookup call.function.name with
  | none => simp only [hl] at h; cases h
  | some tool =>
    simp only [hl] at h
    cases hp : jsonParse call.function.arguments with
    | error m => simp only [hp] at h; cases h
    | ok args =>
      simp only [hp] at h
      cases hi : tool.implementation args with
      | error m => simp only [hi] at h; cases h
      | ok res =>
        simp only [hi, Except.ok.injEq] at h
        cases h
        exact ⟨rfl, rfl, rfl⟩

/-- C3: handleToolCalls returns exactly one result per request, in
request order (the Promise.all fan-out keeps the result list aligned with
the request list, not with completion timing), and each result carries
the originating request id as tool_call_id and the request name as
name. -/
theorem handleToolCalls_order_and_ids :
    ∀ (tools : List (String × Tool)) (toolCalls : List ChatToolCall)
      (results : List ToolMessage),
      handleToolCalls tools toolCalls = .ok results →
      results.length = toolCalls.length ∧
      ∀ i (hi : i < toolCalls.length) (hr : i < results.length),
        (results.get ⟨i, hr⟩).tool_call_id = (toolCalls.get ⟨i, hi⟩).id ∧
        (results.get ⟨i, hr⟩).name = (toolCalls.get ⟨i, hi⟩).function.name := by
  intro tools toolCalls results h
  obtain ⟨hlen, hidx⟩ := mapME_ok_spec (handleOneToolCall tools) toolCalls results h
  refine ⟨hlen, fun i hi hr => ?_⟩
  have hf := handleOneToolCall_ok_fields tools (toolCalls.get ⟨i, hi⟩)
    (results.get ⟨i, hr⟩) (hidx i hi hr)
  exact ⟨hf.2.1, hf.2.2⟩

/-- C3 witness: the two-request batch against the demo registry yields
two results in request order with matching ids and names. -/
theorem handleToolCalls_order_and_ids_check :
    handleToolCalls demoRegistry demoCalls = .ok demoResults ∧
    demoResults.length = demoCalls.length ∧
    (demoResults.get ⟨0, by decide⟩).tool_call_id = (demoCalls.get ⟨0, by decide⟩).id ∧
    (demoResults.get ⟨1, by decide⟩).tool_call_id = (demoCalls.get ⟨1, by decide⟩).id ∧
    (demoResults.get ⟨1, by decide⟩).name = (demoCalls.get ⟨1, by decide⟩).function.name := by
  have h := handleToolCalls_order_and_ids demoRegistry demoCalls demoResults rfl
  exact ⟨rfl, h.1, (h.2 0 (by decide) (by decide)).1,
    (h.2 1 (by decide) (by decide)).1, (h.2 1 (by decide) (by decide)).2⟩

/-- C4: a dispatched result message carries as content the stringified
implementation return value, where a string passes through untouched, a
number becomes its decimal text form, and every other value is
JSON-encoded. -/
theorem dispatch_content_stringification :
    ∀ (tools : List (String × Tool)) (call : ChatToolCall) (tool : Tool)
      (args result : Json),
      tools.lookup call.function.name = some tool →
      jsonParse call.function.arguments = .ok args →
      tool.implementation args = .ok result →
      handleOneToolCall tools call =
        .ok { role := "tool", tool_call_id := call.id,
              name := call.function.name,
              content := stringifyResult result } ∧
      (∀ s, stringifyResult (.str s) = s) ∧
      (∀ n : Int, stringifyResult (.num n) = toString n) ∧
      (∀ j : Json, (∀ s, j ≠ .str s) → (∀ n, j ≠ .num n) →
        stringifyResult j = jsonStringify j) := by
  intro tools call tool args result hl hp hi
  refine ⟨?_, fun s => rfl, fun n => rfl, fun j hs hn => ?_⟩
  · unfold handleOneToolCall
    simp only [hl, hp, hi]
  · cases j with
    | str s => exact absurd rfl (hs s)
    | num n => exact absurd rfl (hn n)
    | bool b => rfl
    | null => rfl
    | arr xs => rfl
    | obj fs => rfl

/-- C4 witness: the number-seven tool dispatches to the decimal content
"7", and the stringification cases evaluate as stated. -/
theorem dispatch_content_stringification_check :
    handleOneToolCall [("getSeven", sevenTool)]
        { id := "5", function := { name := "getSeven", arguments := "\x7b\x7d" } } =
      .ok { role := "tool", tool_call_id := "5", name := "getSeven",
            content := stringifyResult (.num 7) } ∧
    stringifyResult (.num 7) = "7" ∧
    stringifyResult (.str "olleh") = "olleh" ∧
    stringifyResult (.obj [("temperature", .num 72)]) =
      "\x7b\"temperature\":72\x7d" := by
  have h := dispatch_content_stringification [("getSeven", sevenTool)]
    { id := "5", function := { name := "getSeven", arguments := "\x7b\x7d" } }
    sevenTool (.obj []) (.num 7) rfl rfl rfl
  exact ⟨h.1, rfl, h.2.1 "olleh", rfl⟩

/-- C5: when the request names no tool of the registry, the per-call
dispatch of that request fails with the structured unknown-tool error
(in the source the lookup yields undefined and the call crashes at the
implementation property access). -/
theorem unknown_tool_name_fails :
    ∀ (tools : List (String × Tool)) (call : ChatToolCall),
      tools.lookup call.function.name = none →
      handleOneToolCall tools call = .error (.unknownTool call.function.name) := by
  intro tools call hl
  unfold handleOneToolCall
  simp only [hl]

/-- C5 witness: a request naming "translate" against the demo registry
fails with the unknown-tool error for that name. -/
theorem unknown_tool_name_fails_check :
    List.lookup "translate" demoRegistry = none ∧
    handleOneToolCall demoRegistry
        { id := "9", function := { name := "translate", arguments := "\x7b\x7d" } } =
      .error (.unknownTool "translate") :=
  ⟨rfl, unknown_tool_name_fails demoRegistry
    { id := "9", function := { name := "translate", arguments := "\x7b\x7d" } } rfl⟩

/-- C2: a tool whose declared single argument type is not an object
stores the wrapped wire argument schema with the single input key, and
dispatch hands the implementation the unwrapped value under that key, so
the implementation never sees the wrapper; concretely, the reverse
request with id "1" and rawArguments carrying input "hello" yields the
result message with id "1", name "reverse" and content "olleh". -/
theorem makeTool_wraps_primitive_argument :
    ∀ (t : ZodType) (f : ZodFunctionDef) (impl : Json → Json) (tool : Tool),
      typeName t ≠ "ZodObject" →
      f.args = [some t] →
      makeTool f impl = .ok tool →
      (tool.zodFunctionSchema.args = [some (.zObject [("input", t)])] ∧
       ∀ v, parse t v = .ok v →
         tool.implementation (.obj [("input", v)]) =
           parse (maybeAZodPromise f.ret) (impl v)) ∧
      handleToolCalls [("reverse", reverseTool)] [reverseCall] =
        .ok [{ role := "tool", tool_call_id := "1", name := "reverse",
               content := "olleh" }] := by
  intro t f impl tool hne hargs h
  have hta : makeToolArgumentType f = some t := by
    simp [makeToolArgumentType, hargs]
  have hbne : (typeName t != "ZodObject") = true := by
    simpa [bne_iff_ne] using hne
  have hslot : makeToolArgSlot f = some (.zObject [("input", t)]) := by
    simp [makeToolArgSlot, hta, hbne]
  have hov : makeToolShouldOverride f = true := by
    simp [makeToolShouldOverride, hta, hbne]
  have hlen : f.args.length ≤ 1 := by simp [hargs]
  simp only [makeTool, if_pos hlen, Except.ok.injEq] at h
  subst h
  refine ⟨⟨by simp [hslot], fun v hv => ?_⟩, rfl⟩
  simp only [hslot, hov, parseArgSlot, parse, parseShape, List.lookup,
    beq_self_eq_true, hv]
  simp [getField, List.lookup]

/-- C2 witness: the reverse tool is built from a plain-string signature,
stores the wrapped input schema, and the concrete dispatch scenario
yields content "olleh". -/
theorem makeTool_wraps_primitive_argument_check :
    reverseSchema.args = [some ZodType.zString] ∧
    makeTool reverseSchema reverseImpl = .ok reverseTool ∧
    reverseTool.zodFunctionSchema.args =
      [some (.zObject [("input", ZodType.zString)])] ∧
    handleToolCalls [("reverse", reverseTool)] [reverseCall] =
      .ok [{ role := "tool", tool_call_id := "1", name := "reverse",
             content := "olleh" }] := by
  have h := makeTool_wraps_primitive_argument ZodType.zString reverseSchema
    reverseImpl reverseTool (by decide) rfl rfl
  exact ⟨rfl, rfl, h.1.1, h.2⟩

/-- C10: the callable stored by makeTool validates the decoded argument
against the stored (possibly input-wrapped) argument schema before the
user implementation runs — a failing argument parse yields that
validation error for every implementation — and on success it validates
the value produced by the implementation against the declared return
type (or a promise of it). -/
theorem makeTool_validates_argument_and_return :
    ∀ (f : ZodFunctionDef) (impl : Json → Json) (tool : Tool),
      makeTool f impl = .ok tool →
      tool.zodFunctionSchema.args = [makeToolArgSlot f] ∧
      (∀ raw e, parseArgSlot (makeToolArgSlot f) raw = .error e →
        tool.implementation raw = .error e) ∧
      (∀ raw a, parseArgSlot (makeToolArgSlot f) raw = .ok a →
        tool.implementation raw =
          parse (maybeAZodPromise f.ret)
            (impl (if makeToolShouldOverride f then getField a "input" else a))) := by
  intro f impl tool h
  by_cases hlen : f.args.length ≤ 1
  · simp only [makeTool, if_pos hlen, Except.ok.injEq] at h
    subst h
    refine ⟨rfl, fun raw e he => ?_, fun raw a ha => ?_⟩
    · simp only [he]
    · simp only [ha]
  · simp only [makeTool, if_neg hlen] at h
    cases h

/-- C10 witness: a non-object raw argument is rejected by the reverse
tool with the object-validation error before the implementation runs,
and a conforming raw argument reaches the return-type validation. -/
theorem makeTool_validates_argument_and_return_check :
    makeTool reverseSchema reverseImpl = .ok reverseTool ∧
    parseArgSlot (makeToolArgSlot reverseSchema) (.num 3) =
      .error "Expected object, received other" ∧
    reverseTool.implementation (.num 3) =
      .error "Expected object, received other" ∧
    reverseTool.implementation (.obj [("input", .str "ab")]) = .ok (.str "ba") := by
  have h := makeTool_validates_argument_and_return reverseSchema reverseImpl
    reverseTool rfl
  exact ⟨rfl, rfl, h.2.1 (.num 3) "Expected object, received other" rfl, rfl⟩

/-- C1: for every signature accepted by validateFunction, a non-object
declared return type T yields an outputSchema equal to the trimmed
schema of the wrapped object with the single result key, and
postProcessResult on an object carrying result v returns v for every v
valid under T; an object declared return type yields the trimmed schema
of T directly and postProcessResult returns the validated value
unchanged (a value valid under T being one the zod parse maps to
itself). -/
theorem validateFunction_output_schema_and_unwrap :
    ∀ (f : ZodFunctionDef),
      exceptIsOk (validateFunction f) = true →
      (typeName f.ret ≠ "ZodObject" →
        (validateFunction f).map FunctionContract.outputSchema =
          trimGeneratedJsonSchema (zodToJsonSchema (.zObject [("result", f.ret)])) ∧
        ∀ v, parse f.ret v = .ok v →
          postProcessOf (validateFunction f) (.obj [("result", v)]) = .ok v) ∧
      (typeName f.ret = "ZodObject" →
        (validateFunction f).map FunctionContract.outputSchema =
          trimGeneratedJsonSchema (zodToJsonSchema f.ret) ∧
        ∀ v, parse f.ret v = .ok v →
          postProcessOf (validateFunction f) v = .ok v) := by
  intro f hOk
  by_cases h1 : f.args.length = 1
  · cases hd : f.description with
    | none => simp [validateFunction, h1, hd, exceptIsOk] at hOk
    | some d =>
      by_cases h2 : typeName f.ret = "ZodUnknown"
      · simp [validateFunction, h1, hd, h2, exceptIsOk] at hOk
      · cases hz : zodToJsonSchemaOpt (f.args.head?.getD none) with
        | error e => simp [validateFunction, h1, hd, h2, hz, exceptIsOk] at hOk
        | ok rawIn =>
          cases hti : trimGeneratedJsonSchema rawIn with
          | error e =>
            simp [validateFunction, h1, hd, h2, hz, hti, exceptIsOk] at hOk
          | ok inS =>
            cases hto : trimGeneratedJsonSchema (zodToJsonSchema (wrapReturn f.ret)) with
            | error e =>
              simp [validateFunction, h1, hd, h2, hz, hti, hto, exceptIsOk] at hOk
            | ok outS =>
              have hvf : validateFunction f =
                  .ok { inputSchema := inS, outputSchema := outS, description := d
                        postProcessResult := fun result =>
                          match parse (wrapReturn f.ret) result with
                          | .error e => .error e
                          | .ok parsed =>
                            .ok (if typeName f.ret = "ZodObject" then parsed
                                 else getField parsed "result") } := by
                simp [validateFunction, h1, hd, h2, hz, hti, hto]
              constructor
              · intro hno
                have hw : wrapReturn f.ret = .zObject [("result", f.ret)] := by
                  simp [wrapReturn, hno]
                have hto2 : trimGeneratedJsonSchema
                    (zodToJsonSchema (.zObject [("result", f.ret)])) = .ok outS := by
                  rw [← hw]; exact hto
                constructor
                · rw [hvf, hto2]; rfl
                · intro v hv
                  rw [hvf]
                  simp only [postProcessOf, hw, parse, parseShape, List.lookup,
                    beq_self_eq_true, hv]
                  simp [hno, getField, List.lookup]
              · intro hyes
                have hw : wrapReturn f.ret = f.ret := by simp [wrapReturn, hyes]
                have hto2 : trimGeneratedJsonSchema (zodToJsonSchema f.ret) =
                    .ok outS := by
                  rw [← hw]; exact hto
                constructor
                · rw [hvf, hto2]; rfl
                · intro v hv
                  rw [hvf]
                  simp only [postProcessOf, hw, hv]
                  simp [hyes]
  · simp [validateFunction, h1, exceptIsOk] at hOk

/-- C1 witness: the repository sample signature (string argument, string
return, description present) compiles; its outputSchema is the trimmed
wrapped-result schema and postProcessResult unwraps the result key. -/
theorem validateFunction_output_schema_and_unwrap_check :
    exceptIsOk (validateFunction sampleSignature) = true ∧
    typeName sampleSignature.ret ≠ "ZodObject" ∧
    (validateFunction sampleSignature).map FunctionContract.outputSchema =
      trimGeneratedJsonSchema
        (zodToJsonSchema (.zObject [("result", ZodType.zString)])) ∧
    postProcessOf (validateFunction sampleSignature)
        (.obj [("result", .str "seven")]) = .ok (.str "seven") := by
  have h := (validateFunction_output_schema_and_unwrap sampleSignature rfl).1
    (by decide)
  exact ⟨rfl, by decide, h.1, h.2 (.str "seven") rfl⟩

theorem trim_zobject_ok (shape : List (String × ZodType)) :
    ∃ s, trimGeneratedJsonSchema (zodToJsonSchema (.zObject shape)) = .ok s := by
  by_cases hE : shape.isEmpty
  · refine ⟨.obj [("type", .str "object"),
      ("properties", .obj (shapeProperties shape))], ?_⟩
    simp [trimGeneratedJsonSchema, trimFields, zodToJsonSchema,
      zodToJsonSchemaBody, hE, hasKey, List.filter, List.lookup, pickKeys]
  · refine ⟨.obj [("type", .str "object"),
      ("properties", .obj (shapeProperties shape)),
      ("required", .arr (shape.map (fun kv => Json.str kv.1)))], ?_⟩
    simp [trimGeneratedJsonSchema, trimFields, zodToJsonSchema,
      zodToJsonSchemaBody, hE, hasKey, List.filter, List.lookup, pickKeys]

theorem trim_wrapReturn_ok (r : ZodType) :
    ∃ s, trimGeneratedJsonSchema (zodToJsonSchema (wrapReturn r)) = .ok s := by
  unfold wrapReturn
  by_cases h : typeName r = "ZodObject"
  · rw [if_pos h]
    cases r <;> first
      | exact trim_zobject_ok _
      | simp [typeName] at h
  · rw [if_neg h]
    exact trim_zobject_ok [("result", r)]

/-- C6 counterexample: a signature with exactly one argument, a known
(string) return type and a description present still raises, because the
unknown-typed argument has no resolvable generated schema type — so the
converse half of the claim is false as stated. -/
theorem validateFunction_unknown_argument_still_raises :
    validateFunction
        { args := [some .zUnknown], ret := .zString,
          description := some "Sample description" } =
      .error schemaErrorMessage := rfl

/-- C6 amended: validateFunction fails with an invalid-signature error
whenever the argument count is not exactly one or the declared return
type is structurally unknown; conversely, a signature with exactly one
argument whose generated schema trims successfully, a known return type
and a description present compiles without raising. -/
theorem validateFunction_invariant_checks :
    ∀ (f : ZodFunctionDef),
      (f.args.length ≠ 1 → validateFunction f = .error singleArgumentMessage) ∧
      (f.args.length = 1 → typeName f.ret = "ZodUnknown" →
        ∃ m, validateFunction f = .error m ∧
          m ∈ [singleArgumentMessage, descriptionRequiredMessage,
               returnTypeRequiredMessage]) ∧
      (∀ a d s, f.args = [some a] → f.description = some d →
        typeName f.ret ≠ "ZodUnknown" →
        trimGeneratedJsonSchema (zodToJsonSchema a) = .ok s →
        exceptIsOk (validateFunction f) = true) := by
  intro f
  refine ⟨fun h1 => by simp [validateFunction, h1], fun h1 h2 => ?_, ?_⟩
  · cases hd : f.description with
    | none =>
      exact ⟨descriptionRequiredMessage, by simp [validateFunction, h1, hd],
        by simp⟩
    | some d =>
      exact ⟨returnTypeRequiredMessage, by simp [validateFunction, h1, hd, h2],
        by simp⟩
  · intro a d s hargs hd hne htrim
    have h1 : f.args.length = 1 := by simp [hargs]
    obtain ⟨os, hos⟩ := trim_wrapReturn_ok f.ret
    simp [validateFunction, h1, hargs, hd, hne, zodToJsonSchemaOpt, htrim, hos,
      exceptIsOk]

/-- C6 witness: zero arguments raise the single-argument error, an
unknown return type raises an invalid-signature error, and the sample
signature compiles. -/
theorem validateFunction_invariant_checks_check :
    validateFunction { args := [], ret := .zString, description := some "d" } =
      .error singleArgumentMessage ∧
    (∃ m, validateFunction
        { args := [some .zString], ret := .zUnknown, description := some "d" } =
      .error m ∧
      m ∈ [singleArgumentMessage, descriptionRequiredMessage,
           returnTypeRequiredMessage]) ∧
    exceptIsOk (validateFunction sampleSignature) = true :=
  ⟨(validateFunction_invariant_checks _).1 (by decide),
   (validateFunction_invariant_checks _).2.1 (by decide) (by decide),
   (validateFunction_invariant_checks sampleSignature).2.2 .zString
     "Sample description" (.obj [("type", .str "string")]) rfl rfl (by decide)
     rfl⟩

/-- C7 counterexample: the empty-string description is accepted — the
source only checks that the description is not undefined — refuting the
claim that compilation fails for every description that is not a
non-empty string. -/
theorem validateFunction_accepts_empty_description :
    exceptIsOk (validateFunction
      { args := [some .zString], ret := .zString, description := some "" }) =
      true := rfl

/-- C7 amended: validateFunction fails with the description-required
error exactly when the description is absent (undefined); any present
string, including the empty string, passes the check, so compilation
succeeds only when a description is present. -/
theorem validateFunction_description_presence :
    ∀ (f : ZodFunctionDef),
      (f.args.length = 1 → f.description = none →
        validateFunction f = .error descriptionRequiredMessage) ∧
      (exceptIsOk (validateFunction f) = true → f.description ≠ none) := by
  intro f
  constructor
  · intro h1 hd
    simp [validateFunction, h1, hd]
  · intro hOk hdn
    by_cases h1 : f.args.length = 1
    · simp [validateFunction, h1, hdn, exceptIsOk] at hOk
    · simp [validateFunction, h1, exceptIsOk] at hOk

/-- C7 witness: an absent description raises the description-required
error, and the compiled sample signature has a present description. -/
theorem validateFunction_description_presence_check :
    validateFunction
        { args := [some ZodType.zString], ret := ZodType.zString,
          description := none } =
      .error descriptionRequiredMessage ∧
    sampleSignature.description ≠ none :=
  ⟨(validateFunction_description_presence _).1 rfl rfl,
   (validateFunction_description_presence sampleSignature).2 rfl⟩


/-- Whether a JSON value is an object carrying the key. -/
def hasKeyJson : Json → String → Bool
  | .obj fields, k => hasKey fields k
  | _, _ => false

theorem mem_pickKeys (fields : List (String × Json)) (ks : List String)
    (kv : String × Json) (h : kv ∈ pickKeys fields ks) : kv.1 ∈ ks := by
  simp only [pickKeys, List.mem_filterMap] at h
  obtain ⟨a, ha, hmap⟩ := h
  cases hl : fields.lookup a with
  | none => rw [hl] at hmap; cases hmap
  | some v =>
    rw [hl] at hmap
    simp only [Option.map_some', Option.some.injEq] at hmap
    rw [← hmap]
    exact ha

theorem pickKeys_lookup_not_mem (fields : List (String × Json)) (k : String) :
    ∀ (ks : List String), k ∉ ks → (pickKeys fields ks).lookup k = none := by
  intro ks
  induction ks with
  | nil => intro _; rfl
  | cons k2 ks2 ih =>
    intro hk
    have hk2 : ¬(k = k2) := fun he => hk (by simp [he])
    have hks2 : k ∉ ks2 := fun he => hk (by simp [he])
    simp only [pickKeys, List.filterMap_cons]
    cases hl : fields.lookup k2 with
    | none => simpa [pickKeys] using ih hks2
    | some v =>
      simp only [Option.map_some']
      have hbe : (k == k2) = false := by simp [hk2]
      simpa [List.lookup, hbe, pickKeys] using ih hks2

theorem hasKey_filter_false (p : String × Json → Bool) (k : String) :
    ∀ (fields : List (String × Json)), hasKey fields k = false →
      hasKey (fields.filter p) k = false := by
  intro fields
  induction fields with
  | nil => intro _; rfl
  | cons kv rest ih =>
    intro h
    simp only [hasKey, List.lookup] at h
    cases hbe : k == kv.1 with
    | true => rw [hbe] at h; simp at h
    | false =>
      rw [hbe] at h
      have hrest := ih h
      cases hp : p kv with
      | true =>
        simp only [List.filter_cons, hp, if_true, hasKey, List.lookup, hbe]
        exact hrest
      | false =>
        simp only [List.filter_cons, hp, if_false]
        exact hrest

theorem trimFields_ok_shape (rest : List (String × Json)) (out : Json)
    (h : trimFields rest = .ok out) :
    (jsonKeys out).all
      (fun k => (["type", "properties", "required", "description"] :
        List String).contains k) = true ∧
    hasKeyJson out "type" = true ∧
    hasKeyJson out "$schema" = false ∧
    hasKeyJson out "definitions" = false := by
  simp only [trimFields] at h
  cases hT : hasKey rest "type" with
  | false => rw [hT] at h; simp at h
  | true =>
    rw [hT] at h
    simp only [if_true] at h
    obtain ⟨v, hv⟩ := Option.isSome_iff_exists.mp hT
    have conclude : ∀ (ks2 : List String),
        (∀ k, k ∈ ("type" :: ks2) →
          k ∈ (["type", "properties", "required", "description"] : List String)) →
        out = .obj (pickKeys rest ("type" :: ks2)) →
        (jsonKeys out).all
          (fun k => (["type", "properties", "required", "description"] :
            List String).contains k) = true ∧
        hasKeyJson out "type" = true ∧
        hasKeyJson out "$schema" = false ∧
        hasKeyJson out "definitions" = false := by
      intro ks2 hsub hout
      subst hout
      refine ⟨?_, ?_, ?_, ?_⟩
      · rw [List.all_eq_true]
        intro k hk
        simp only [jsonKeys, List.mem_map] at hk
        obtain ⟨kv, hkv, hfst⟩ := hk
        have hm := mem_pickKeys rest _ kv hkv
        rw [← hfst]
        exact List.elem_eq_true_of_mem (hsub kv.1 hm)
      · simp [hasKeyJson, pickKeys, List.filterMap_cons, hv, hasKey, List.lookup]
      · have hn := pickKeys_lookup_not_mem rest "$schema" ("type" :: ks2)
          (fun hmem => by
            have := hsub "$schema" hmem
            simp at this)
        simp [hasKeyJson, hasKey, hn]
      · have hn := pickKeys_lookup_not_mem rest "definitions" ("type" :: ks2)
          (fun hmem => by
            have := hsub "definitions" hmem
            simp at this)
        simp [hasKeyJson, hasKey, hn]
    cases hP : hasKey rest "properties" with
    | true =>
      rw [hP] at h
      simp only [if_true, Except.ok.injEq] at h
      exact conclude ["properties", "required", "description"]
        (fun k hk => hk) h.symm
    | false =>
      rw [hP] at h
      simp only [Bool.false_eq_true, if_false, Except.ok.injEq] at h
      refine conclude ["description"] (fun k hk => ?_) h.symm
      simp only [List.mem_cons] at hk
      rcases hk with rfl | rfl | h0
      · simp
      · simp
      · exact absurd h0 (List.not_mem_nil k)

/-- C8: on every generated document whose remainder has a resolvable
type, the trimmer returns an object carrying only the keys type,
properties, required and description (the schema-version tag and the
definitions table stripped), always including type; on every document
without a type key it throws the SchemaError; purity holds by
construction, the trimmer being a function of its input alone. -/
theorem trimGeneratedJsonSchema_keys_and_failure :
    ∀ (fields : List (String × Json)),
      (∀ out, trimGeneratedJsonSchema (.obj fields) = .ok out →
        (jsonKeys out).all
          (fun k => (["type", "properties", "required", "description"] :
            List String).contains k) = true ∧
        hasKeyJson out "type" = true ∧
        hasKeyJson out "$schema" = false ∧
        hasKeyJson out "definitions" = false) ∧
      (hasKey fields "type" = false →
        trimGeneratedJsonSchema (.obj fields) = .error schemaErrorMessage) := by
  intro fields
  constructor
  · intro out h
    simp only [trimGeneratedJsonSchema] at h
    exact trimFields_ok_shape _ out h
  · intro hT
    have hT2 := hasKey_filter_false
      (fun kv => decide (kv.1 ≠ "$schema" ∧ kv.1 ≠ "definitions")) "type" fields hT
    simp only [trimGeneratedJsonSchema, trimFields, hT2, if_false,
      Bool.false_eq_true]
    rfl

/-- C8 witness: a generated document with a schema tag, a definitions
table and extra generator keys trims to an object with only the allowed
keys, and a document without a type key throws the SchemaError. -/
theorem trimGeneratedJsonSchema_keys_and_failure_check :
    trimGeneratedJsonSchema (.obj
        [("$schema", .str "http://json-schema.org/draft-07/schema#"),
         ("definitions", .obj []),
         ("type", .str "object"),
         ("properties", .obj [("result", .obj [("type", .str "string")])]),
         ("required", .arr [.str "result"]),
         ("additionalProperties", .bool false)]) =
      .ok (.obj
        [("type", .str "object"),
         ("properties", .obj [("result", .obj [("type", .str "string")])]),
         ("required", .arr [.str "result"])]) ∧
    (jsonKeys (.obj
        [("type", .str "object"),
         ("properties", .obj [("result", .obj [("type", .str "string")])]),
         ("required", .arr [.str "result"])])).all
      (fun k => (["type", "properties", "required", "description"] :
        List String).contains k) = true ∧
    hasKey [("$schema", .str "x"), ("anyOf", .arr [])] "type" = false ∧
    trimGeneratedJsonSchema (.obj [("$schema", .str "x"), ("anyOf", .arr [])]) =
      .error schemaErrorMessage := by
  refine ⟨rfl, ?_, rfl, ?_⟩
  · exact ((trimGeneratedJsonSchema_keys_and_failure
      [("$schema", .str "http://json-schema.org/draft-07/schema#"),
       ("definitions", .obj []),
       ("type", .str "object"),
       ("properties", .obj [("result", .obj [("type", .str "string")])]),
       ("required", .arr [.str "result"]),
       ("additionalProperties", .bool false)]).1
      (.obj
        [("type", .str "object"),
         ("properties", .obj [("result", .obj [("type", .str "string")])]),
         ("required", .arr [.str "result"])]) rfl).1
  · exact (trimGeneratedJsonSchema_keys_and_failure
      [("$schema", .str "x"), ("anyOf", .arr [])]).2 rfl

theorem formatToolEntry_ok_fields (name : String) (fn : Tool)
    (entry : ChatCompletionTool) (h : formatToolEntry name fn = .ok entry) :
    entry.type = "function" ∧ entry.function.name = name := by
  simp only [formatToolEntry] at h
  split at h
  · split at h
    · cases h
    · split at h
      · split at h
        · cases h
        · cases h
          exact ⟨rfl, rfl⟩
      · cases h
        exact ⟨rfl, rfl⟩
  · cases h

/-- C9: formatTools emits one entry per registry tool, in registry
order, each of the shape with type "function" and the registry name; for
a tool built by makeTool, parameters is absent exactly when the declared
argument count is zero and is the trimmed stored argument schema when a
single argument exists, and the description is the original description
text followed by the appended reminder of the return schema. -/
theorem formatTools_wire_shape :
    (∀ (tools : List (String × Tool)) (entries : List ChatCompletionTool),
      formatTools tools = .ok entries →
      entries.length = tools.length ∧
      ∀ i (hi : i < tools.length) (he : i < entries.length),
        (entries.get ⟨i, he⟩).type = "function" ∧
        (entries.get ⟨i, he⟩).function.name = (tools.get ⟨i, hi⟩).1) ∧
    (∀ (f : ZodFunctionDef) (impl : Json → Json) (tool : Tool)
        (name : String) (entry : ChatCompletionTool),
      (∀ x ∈ f.args, x ≠ none) →
      makeTool f impl = .ok tool →
      formatToolEntry name tool = .ok entry →
      (entry.function.parameters = none ↔ f.args = []) ∧
      (∀ a s, makeToolArgSlot f = some a →
        trimGeneratedJsonSchema (zodToJsonSchema a) = .ok s →
        entry.function.parameters = some s) ∧
      (∀ d rt, f.description = some d → d ≠ "" →
        trimGeneratedJsonSchema (zodToJsonSchema f.ret) = .ok rt →
        entry.function.description =
          d ++ "\n\n" ++
            ("Responses will match the following JSONSchema definition: " ++
              jsonStringify rt))) := by
  constructor
  · intro tools entries h
    simp only [formatTools] at h
    obtain ⟨hlen, hidx⟩ := mapME_ok_spec
      (fun nameAndTool => formatToolEntry nameAndTool.1 nameAndTool.2) tools
      entries h
    refine ⟨hlen, fun i hi he => ?_⟩
    exact formatToolEntry_ok_fields (tools.get ⟨i, hi⟩).1 (tools.get ⟨i, hi⟩).2
      (entries.get ⟨i, he⟩) (hidx i hi he)
  · intro f impl tool name entry hwf hmk hfmt
    by_cases hlen : f.args.length ≤ 1
    · simp only [makeTool, if_pos hlen, Except.ok.injEq] at hmk
      subst hmk
      cases hargs : f.args with
      | nil =>
        have hslot : makeToolArgSlot f = none := by
          simp [makeToolArgSlot, makeToolArgumentType, hargs]
        cases htr : trimGeneratedJsonSchema (zodToJsonSchema f.ret) with
        | error e => simp [formatToolEntry, hslot, htr] at hfmt
        | ok rt0 =>
          simp only [formatToolEntry, hslot, htr] at hfmt
          simp at hfmt
          subst hfmt
          refine ⟨by simp, fun a s hsa hts => ?_, fun d rt hd hdne htr2 => ?_⟩
          · rw [hslot] at hsa; cases hsa
          · cases htr2
            simp [hd, hdne, String.append_assoc]
      | cons x xs =>
        cases xs with
        | cons y ys => simp [hargs] at hlen
        | nil =>
          cases x with
          | none => exact absurd rfl (hwf none (by rw [hargs]; simp))
          | some a =>
            have hslotx : ∃ slotT, makeToolArgSlot f = some slotT := by
              by_cases hobj : typeName a = "ZodObject"
              · exact ⟨a, by
                  simp [makeToolArgSlot, makeToolArgumentType, hargs, bne, hobj]⟩
              · exact ⟨.zObject [("input", a)], by
                  simp [makeToolArgSlot, makeToolArgumentType, hargs, bne, hobj]⟩
            obtain ⟨slotT, hslot⟩ := hslotx
            cases htr : trimGeneratedJsonSchema (zodToJsonSchema f.ret) with
            | error e => simp [formatToolEntry, hslot, htr] at hfmt
            | ok rt0 =>
              cases hta : trimGeneratedJsonSchema (zodToJsonSchema slotT) with
              | error e => simp [formatToolEntry, hslot, htr, hta] at hfmt
              | ok s0 =>
                simp only [formatToolEntry, hslot, htr, hta] at hfmt
                simp at hfmt
                subst hfmt
                refine ⟨by simp [hargs], fun a2 s hsa hts => ?_,
                  fun d rt hd hdne htr2 => ?_⟩
                · rw [hslot] at hsa
                  cases hsa
                  rw [hta] at hts
                  cases hts
                  rfl
                · cases htr2
                  simp [hd, hdne, String.append_assoc]
    · simp [makeTool, hlen] at hmk

/-- An empty placeholder entry used as the default of exceptGetD. -/
def defaultEntry : ChatCompletionTool :=
  { type := "", function := { name := "", description := "", parameters := none } }

/-- The formatted entry of the weather tool. -/
def weatherEntry : ChatCompletionTool :=
  exceptGetD (formatToolEntry "getWeather" weatherTool) defaultEntry

/-- The trimmed return schema of the weather tool. -/
def weatherReturnTrimmed : Json :=
  exceptGetD (trimGeneratedJsonSchema (zodToJsonSchema weatherSchema.ret)) .null

/-- C9 witness: the zero-argument weather tool formats to a single entry
of type "function" with parameters absent and a description holding the
original text and the appended return-schema reminder. -/
theorem formatTools_wire_shape_check :
    formatTools [("getWeather", weatherTool)] = .ok [weatherEntry] ∧
    weatherEntry.type = "function" ∧
    weatherEntry.function.name = "getWeather" ∧
    weatherEntry.function.parameters = none ∧
    weatherEntry.function.description =
      "temperature lookup" ++ "\n\n" ++
        ("Responses will match the following JSONSchema definition: " ++
          jsonStringify weatherReturnTrimmed) := by
  have h1 := formatTools_wire_shape.1 [("getWeather", weatherTool)]
    [weatherEntry] rfl
  have h2 := formatTools_wire_shape.2 weatherSchema weatherImpl weatherTool
    "getWeather" weatherEntry (by intro x hx; simp [weatherSchema] at hx)
    rfl rfl
  exact ⟨rfl, (h1.2 0 (by decide) (by decide)).1,
    (h1.2 0 (by decide) (by decide)).2, h2.1.mpr rfl,
    h2.2.2 "temperature lookup" weatherReturnTrimmed rfl (by decide) rfl⟩
